import Mathlib

/-!
Shallow embedding of the hh.uz vacancy-notification bot
(`bot.py`, `database.py`, `config.py`) and proofs about its behaviour.

Conventions of the embedding:
* A JSON field that may be absent or `null` is an `Option`.
* Python truthiness is modelled explicitly: `None` and `0` and `""` are
  falsy, everything else truthy (`nat_truthy`, `str_truthy`).
* The `seen_vacancies` table is a `List String` of `vacancy_id` values in
  insertion order (the table has a uniqueness index on `vacancy_id`, which
  the operations below respect at the application level).
* The `users` table is a `List User` in insertion order.
* Network sends and HTTP responses are passed in as explicit outcome data,
  since the embedding is of the control flow around them.
-/

/-- Salary object of a listing record: JSON fields `from`, `to`, `currency`.
Field names follow the local variables of `format_vacancy_message`. -/
structure Salary where
  salary_from : Option Nat
  salary_to : Option Nat
  currency : Option String
  deriving DecidableEq

/-- A job listing record as returned by the API, restricted to the fields the
bot's selection, sorting and salary-formatting logic reads. -/
structure Vacancy where
  id : Option String
  published_at : Option String
  salary : Option Salary
  deriving DecidableEq

/-- Python truthiness of an optional integer: `None` and `0` are falsy. -/
def nat_truthy : Option Nat → Bool
  | some n => decide (n ≠ 0)
  | none => false

/-- Python truthiness of an optional string: `None` and `""` are falsy. -/
def str_truthy : Option String → Bool
  | some s => !s.isEmpty
  | none => false

/-- Python `str(vacancy.get("id"))`: an absent `id` stringifies to `"None"`. -/
def str_of_id : Option String → String
  | some s => s
  | none => "None"

/-- Python truthiness of the resulting id string: only `""` is falsy. -/
def id_truthy (s : String) : Bool :=
  !s.isEmpty

/-- Helper for Python `f"{n:,}"`: groups a reversed digit list in threes.
Separators are already spaces because the code immediately does
`.replace(",", " ")`. -/
def group3 : List Char → List Char
  | [] => []
  | [a] => [a]
  | [a, b] => [a, b]
  | [a, b, c] => [a, b, c]
  | a :: b :: c :: rest => a :: b :: c :: ' ' :: group3 rest

/-- Python `f"{n:,}".replace(",", " ")`: decimal digits grouped in threes
from the right, separated by spaces. -/
def py_thousands (n : Nat) : String :=
  String.mk ((group3 (Nat.repr n).data.reverse).reverse)

/-- The salary line computed inside `format_vacancy_message`
(`bot.py` lines 144-160), with Python truthiness of `salary_data`,
`salary_from` and `salary_to` made explicit.  A missing or `null` or empty
`salary` object is falsy, as is a bound equal to `0`. -/
def format_salary (salary_data : Option Salary) : String :=
  match salary_data with
  | none => "Не указана"
  | some sd =>
    let salary_from := sd.salary_from
    let salary_to := sd.salary_to
    let currency := sd.currency.getD ""
    if nat_truthy salary_from && nat_truthy salary_to then
      py_thousands (salary_from.getD 0) ++ " - " ++ py_thousands (salary_to.getD 0)
        ++ " " ++ currency
    else if nat_truthy salary_from then
      "от " ++ py_thousands (salary_from.getD 0) ++ " " ++ currency
    else if nat_truthy salary_to then
      "до " ++ py_thousands (salary_to.getD 0) ++ " " ++ currency
    else
      "Не указана"

/-- Boolean test that one character list occurs contiguously in another. -/
def chars_infix : List Char → List Char → Bool
  | needle, [] => needle.isEmpty
  | needle, c :: rest => needle.isPrefixOf (c :: rest) || chars_infix needle rest

/-- Boolean substring test on the underlying character lists. -/
def has_substr (needle hay : String) : Bool :=
  chars_infix needle.data hay.data

/-- `database.is_vacancy_seen`: an id is seen iff a `SeenVacancy` row with
that `vacancy_id` exists. -/
def is_vacancy_seen (seen : List String) (vacancy_id : String) : Bool :=
  seen.contains vacancy_id

/-- `database.mark_vacancy_seen`: insert a row unless one already exists
(the application-level guard that makes the uniqueness index a no-op
rather than an error). -/
def mark_vacancy_seen (seen : List String) (vacancy_id : String) : List String :=
  if is_vacancy_seen seen vacancy_id then seen else seen ++ [vacancy_id]

/-- Row of the `users` table (`database.User`). -/
structure User where
  telegram_id : Int
  username : Option String
  first_name : Option String
  is_active : Bool
  deriving DecidableEq

/-- The in-place updates `get_or_create_user` performs on an existing row:
`username` / `first_name` are overwritten only when the new value is truthy
and differs from the stored one, and `is_active` is set back to `True`. -/
def update_existing_user (u : User) (username first_name : Option String) : User :=
  let u1 := if str_truthy username && decide (u.username ≠ username) then
    { u with username := username } else u
  let u2 := if str_truthy first_name && decide (u1.first_name ≠ first_name) then
    { u1 with first_name := first_name } else u1
  { u2 with is_active := true }

/-- `database.get_or_create_user` acting on the table: the first row whose
`telegram_id` matches (`query(...).first()`) is updated in place; when no
row matches, a new active row is inserted. -/
def get_or_create_user (telegram_id : Int) (username first_name : Option String) :
    List User → List User
  | [] => [{ telegram_id := telegram_id, username := username,
             first_name := first_name, is_active := true }]
  | u :: rest =>
    if u.telegram_id = telegram_id then
      update_existing_user u username first_name :: rest
    else
      u :: get_or_create_user telegram_id username first_name rest

/-- `database.deactivate_user`: clears `is_active` on the first matching row;
a missing row leaves the table unchanged. -/
def deactivate_user (telegram_id : Int) : List User → List User
  | [] => []
  | u :: rest =>
    if u.telegram_id = telegram_id then { u with is_active := false } :: rest
    else u :: deactivate_user telegram_id rest

/-- `database.get_active_users`: the `(telegram_id, username, first_name)`
triples of the rows with `is_active` set. -/
def get_active_users (users : List User) : List (Int × Option String × Option String) :=
  (users.filter (·.is_active)).map (fun u => (u.telegram_id, u.username, u.first_name))

/-- Outcome of one `bot.send_message` call: success, or a `TelegramError`
whose text does / does not contain "blocked" or "deactivated". -/
inductive SendOutcome where
  | success
  | telegram_error (blocked_indicated : Bool)
  deriving DecidableEq

/-- The recipient loop of `send_to_all_users`: each delivery failure is
caught; a failure indicating a blocked/deactivated recipient triggers
`deactivate_user`; the loop always continues with the remaining users. -/
def send_loop (send : Int → SendOutcome) :
    List (Int × Option String × Option String) → Nat → List User → Nat × List User
  | [], sent_count, db => (sent_count, db)
  | (telegram_id, _, _) :: rest, sent_count, db =>
    match send telegram_id with
    | .success => send_loop send rest (sent_count + 1) db
    | .telegram_error blocked =>
      send_loop send rest sent_count (if blocked then deactivate_user telegram_id db else db)

/-- `bot.send_to_all_users`: sends to every active user sequentially and
returns the count of successful sends together with the updated table. -/
def send_to_all_users (send : Int → SendOutcome) (db : List User) : Nat × List User :=
  send_loop send (get_active_users db) 0 db

/-- `config.SEARCH_QUERIES`. -/
def SEARCH_QUERIES : List String :=
  ["младший юрист", "коммерческий юрист", "помощник юриста"]

/-- `config.EXPERIENCE_FILTERS`. -/
def EXPERIENCE_FILTERS : List String :=
  ["noExperience", "between1And3"]

/-- Concatenation of a list of lists. -/
def concat_lists {α : Type} : List (List α) → List α
  | [] => []
  | l :: ls => l ++ concat_lists ls

/-- The fetched listings of one cycle, in iteration order of the nested
loops over `SEARCH_QUERIES` and `EXPERIENCE_FILTERS`; `fetch` abstracts
`fetch_vacancies query experience`. -/
def fetch_all (fetch : String → String → List Vacancy) : List Vacancy :=
  concat_lists (SEARCH_QUERIES.map (fun query =>
    concat_lists (EXPERIENCE_FILTERS.map (fun experience => fetch query experience))))

/-- Sort key used by both sorts in `bot.py`: `x.get("published_at", "")`. -/
def published_key (v : Vacancy) : String :=
  v.published_at.getD ""

/-- Python's `<=` on strings, on the underlying character lists:
lexicographic by code point. -/
def chars_le : List Char → List Char → Bool
  | [], _ => true
  | _ :: _, [] => false
  | c :: cs, d :: ds =>
    if c.toNat < d.toNat then true
    else if d.toNat < c.toNat then false
    else chars_le cs ds

/-- Python's `<=` on strings. -/
def str_le (a b : String) : Bool :=
  chars_le a.data b.data

/-- `list.sort(key=..., reverse=True)` on `published_at`: a stable sort,
descending by key.  Python's sort is stable also with `reverse=True`, and
any two stable sorts for the same total preorder agree, so insertion sort
that keeps earlier elements first among equal keys is a faithful model. -/
def sort_vacancies (l : List Vacancy) : List Vacancy :=
  List.insertionSort (fun a b => str_le (published_key b) (published_key a) = true) l

/-- Sample listings carrying the publish timestamps of the spec's sorting
example. -/
def vac_jan01 : Vacancy := ⟨some "1", some "2024-01-01T00:00:00Z", none⟩

/-- Second sample listing for the sorting example. -/
def vac_jan02 : Vacancy := ⟨some "2", some "2024-01-02T00:00:00Z", none⟩

/-- Third sample listing for the sorting example. -/
def vac_jan03 : Vacancy := ⟨some "3", some "2024-01-03T00:00:00Z", none⟩

/-- Sample listing record whose `id` field is absent. -/
def vac_noid : Vacancy := ⟨none, some "2024-01-04T00:00:00Z", none⟩

/-- Number of consecutive successful send attempts starting at a given
attempt index, within a fuel bound. -/
def leading_ok (ok : Nat → Bool) : Nat → Nat → Nat
  | _, 0 => 0
  | attempt, fuel + 1 =>
    if ok attempt then leading_ok ok (attempt + 1) fuel + 1 else 0

/-- Inner selection loop of `check_new_vacancies` (bot.py lines 292-303):
an item is selected iff its id string is truthy, not already selected in
this run, and not recorded as seen; selection appends the item, marks it
seen, and adds it to the per-run set. -/
def check_loop : List Vacancy → List String → List String → List Vacancy × List String
  | [], seen, _ => ([], seen)
  | v :: rest, seen, seen_in_this_run =>
    let vacancy_id := str_of_id v.id
    if id_truthy vacancy_id && !(seen_in_this_run.contains vacancy_id)
        && !(is_vacancy_seen seen vacancy_id) then
      let res := check_loop rest (mark_vacancy_seen seen vacancy_id) (vacancy_id :: seen_in_this_run)
      (v :: res.1, res.2)
    else
      check_loop rest seen seen_in_this_run

/-- `bot.check_new_vacancies`, up to the point where the sorted
`new_vacancies` list is handed to the notification loop: returns that list
and the updated seen store. -/
def check_new_vacancies (fetch : String → String → List Vacancy) (seen : List String) :
    List Vacancy × List String :=
  let res := check_loop (fetch_all fetch) seen []
  (sort_vacancies res.1, res.2)

/-- Collection loop of `send_existing_vacancies_to_user` (bot.py lines
230-239): dedup is only against the per-call `seen_ids` set — the store is
not consulted — and every collected id is marked seen. -/
def catch_up_collect : List Vacancy → List String → List String → List Vacancy × List String
  | [], seen, _ => ([], seen)
  | v :: rest, seen, seen_ids =>
    let vacancy_id := str_of_id v.id
    if id_truthy vacancy_id && !(seen_ids.contains vacancy_id) then
      let res := catch_up_collect rest (mark_vacancy_seen seen vacancy_id) (vacancy_id :: seen_ids)
      (v :: res.1, res.2)
    else
      catch_up_collect rest seen seen_ids

/-- What the sending half of the catch-up actually delivered. -/
structure CatchUpSends where
  header_sent : Bool
  items_sent : List Vacancy
  summary_attempted : Bool
  deriving DecidableEq

/-- The per-item send loop of the catch-up: `ok n` is whether the n-th send
attempt of the catch-up succeeds (attempt 0 is the header); the first
`TelegramError` breaks out of the loop. -/
def send_items (ok : Nat → Bool) : List Vacancy → Nat → List Vacancy
  | [], _ => []
  | v :: rest, attempt =>
    if ok attempt then v :: send_items ok rest (attempt + 1) else []

/-- Sending half of `send_existing_vacancies_to_user` (bot.py lines
247-284): nothing is sent when the list is empty; a header failure returns
immediately; otherwise up to 20 items are sent until the first failure,
and the trailing summary is attempted exactly when more than 20 items were
collected (also after a mid-list break). -/
def catch_up_send_phase (vs : List Vacancy) (ok : Nat → Bool) : CatchUpSends :=
  if vs.isEmpty then ⟨false, [], false⟩
  else if ok 0 then
    { header_sent := true
      items_sent := send_items ok (vs.take 20) 1
      summary_attempted := decide (20 < vs.length) }
  else ⟨false, [], false⟩

/-- `bot.send_existing_vacancies_to_user`: collect (marking seen), sort
descending by `published_at`, then send. -/
def send_existing_vacancies_to_user (fetch : String → String → List Vacancy)
    (seen : List String) (ok : Nat → Bool) : CatchUpSends × List String :=
  let res := catch_up_collect (fetch_all fetch) seen []
  (catch_up_send_phase (sort_vacancies res.1) ok, res.2)

/-- Outcome of the HTTP request inside `fetch_vacancies`: either some
`requests.RequestException` was raised during the request or while decoding
the JSON body (`JSONDecodeError` subclasses `RequestException`), or a
response arrived with a status code and, when the body decodes, the value
of `data.get("items", [])`. -/
inductive HttpResult where
  | transport_error
  | response (status : Nat) (body_items : Option (List Vacancy))

/-- `bot.fetch_vacancies` (bot.py lines 110-136): `raise_for_status` raises
`HTTPError` exactly for status codes 400-599, and every
`RequestException` is caught and turned into `[]`. -/
def fetch_vacancies (result : HttpResult) : List Vacancy :=
  match result with
  | .transport_error => []
  | .response status body_items =>
    if 400 ≤ status ∧ status < 600 then []
    else
      match body_items with
      | none => []
      | some items => items

/-! ### Helper lemmas about the seen store -/

theorem is_vacancy_seen_iff (seen : List String) (a : String) :
    is_vacancy_seen seen a = true ↔ a ∈ seen := by
  simp [is_vacancy_seen]

theorem is_vacancy_seen_eq_false_iff (seen : List String) (a : String) :
    is_vacancy_seen seen a = false ↔ a ∉ seen := by
  simp [is_vacancy_seen]

theorem mem_mark_vacancy_seen_self (seen : List String) (a : String) :
    a ∈ mark_vacancy_seen seen a := by
  by_cases h : a ∈ seen <;> simp [mark_vacancy_seen, is_vacancy_seen, h]

theorem mem_mark_vacancy_seen_of_mem (seen : List String) (a b : String) (h : a ∈ seen) :
    a ∈ mark_vacancy_seen seen b := by
  by_cases hb : b ∈ seen <;> simp [mark_vacancy_seen, is_vacancy_seen, hb, h]

theorem not_mem_of_not_mem_mark (seen : List String) (a b : String)
    (h : a ∉ mark_vacancy_seen seen b) : a ∉ seen :=
  fun ha => h (mem_mark_vacancy_seen_of_mem seen a b ha)

theorem count_mark_vacancy_seen_other (seen : List String) (a b : String) (h : a ≠ b) :
    (mark_vacancy_seen seen b).count a = seen.count a := by
  by_cases hb : b ∈ seen <;>
    simp [mark_vacancy_seen, is_vacancy_seen, hb, List.count_append, h]

/-! ### C5: idempotence of mark_vacancy_seen -/

/-- C5: for every store state respecting the uniqueness index (at most one
row per identifier), calling `mark_vacancy_seen` twice with the same
identifier leaves exactly one row for it, and the second call is a no-op on
the store rather than an error. -/
theorem mark_vacancy_seen_idempotent (seen : List String) (vacancy_id : String)
    (h : seen.count vacancy_id ≤ 1) :
    (mark_vacancy_seen (mark_vacancy_seen seen vacancy_id) vacancy_id).count vacancy_id = 1 ∧
    mark_vacancy_seen (mark_vacancy_seen seen vacancy_id) vacancy_id
      = mark_vacancy_seen seen vacancy_id := by
  have hmem : vacancy_id ∈ mark_vacancy_seen seen vacancy_id :=
    mem_mark_vacancy_seen_self seen vacancy_id
  have hnoop : mark_vacancy_seen (mark_vacancy_seen seen vacancy_id) vacancy_id
      = mark_vacancy_seen seen vacancy_id := by
    by_cases hs : vacancy_id ∈ seen <;>
      simp [mark_vacancy_seen, is_vacancy_seen, hs]
  refine ⟨?_, hnoop⟩
  rw [hnoop]
  by_cases hs : vacancy_id ∈ seen
  · have h1 : seen.count vacancy_id ≠ 0 := by
      intro h0
      exact (List.count_eq_zero.mp h0) hs
    have heq : mark_vacancy_seen seen vacancy_id = seen := by
      simp [mark_vacancy_seen, is_vacancy_seen, hs]
    rw [heq]
    omega
  · have h0 : seen.count vacancy_id = 0 := List.count_eq_zero.mpr hs
    simp [mark_vacancy_seen, is_vacancy_seen, hs, List.count_append, h0]

/-- Witness for C5 at a concrete store. -/
theorem mark_vacancy_seen_idempotent_witness :
    (mark_vacancy_seen (mark_vacancy_seen ["7"] "5") "5").count "5" = 1 ∧
    mark_vacancy_seen (mark_vacancy_seen ["7"] "5") "5" = mark_vacancy_seen ["7"] "5" :=
  mark_vacancy_seen_idempotent ["7"] "5" (by decide)

/-! ### C3: the salary line of format_vacancy_message -/

/-- C3 counterexample: a salary record with both bounds present but the
lower bound equal to `0` is falsy in Python, so `format_vacancy_message`
renders it through the upper-bound-only branch: the text is "до 5 USD",
which contains neither the value of `salary.from` nor the range shape the
claim requires for two present bounds. -/
theorem format_salary_claim_counterexample :
    (some 0 : Option Nat) ≠ none ∧ (some 5 : Option Nat) ≠ none ∧
    format_salary (some ⟨some 0, some 5, some "USD"⟩) = "до 5 USD" ∧
    has_substr "0" (format_salary (some ⟨some 0, some 5, some "USD"⟩)) = false := by
  refine ⟨by decide, by decide, by decide, by decide⟩

/-- C3 (amended): with Python truthiness — a bound counts as given only when
present *and nonzero* — the salary text has the four claimed shapes: both
bounds truthy gives both values and the currency, exactly one truthy gives
that bound with its preposition ("от" for the lower, "до" for the upper),
and neither truthy (or no salary object) gives "Не указана". -/
theorem format_salary_truthy_shapes (sd : Salary) :
    (nat_truthy sd.salary_from = true → nat_truthy sd.salary_to = true →
      format_salary (some sd) = py_thousands (sd.salary_from.getD 0) ++ " - "
        ++ py_thousands (sd.salary_to.getD 0) ++ " " ++ sd.currency.getD "") ∧
    (nat_truthy sd.salary_from = true → nat_truthy sd.salary_to = false →
      format_salary (some sd) = "от " ++ py_thousands (sd.salary_from.getD 0)
        ++ " " ++ sd.currency.getD "") ∧
    (nat_truthy sd.salary_from = false → nat_truthy sd.salary_to = true →
      format_salary (some sd) = "до " ++ py_thousands (sd.salary_to.getD 0)
        ++ " " ++ sd.currency.getD "") ∧
    (nat_truthy sd.salary_from = false → nat_truthy sd.salary_to = false →
      format_salary (some sd) = "Не указана") ∧
    format_salary none = "Не указана" := by
  refine ⟨?_, ?_, ?_, ?_, rfl⟩ <;> intro h1 h2 <;> simp [format_salary, h1, h2]

/-- Witness for C3 (amended) at concrete salary records. -/
theorem format_salary_truthy_shapes_witness :
    format_salary (some ⟨some 1500000, some 2000000, some "UZS"⟩)
      = "1 500 000 - 2 000 000 UZS" ∧
    format_salary (some ⟨some 500, none, some "USD"⟩) = "от 500 USD" ∧
    format_salary (some ⟨none, some 700, some "USD"⟩) = "до 700 USD" ∧
    format_salary (some ⟨some 0, none, some "EUR"⟩) = "Не указана" := by
  refine ⟨?_, ?_, ?_, ?_⟩
  · exact ((format_salary_truthy_shapes ⟨some 1500000, some 2000000, some "UZS"⟩).1
      (by decide) (by decide)).trans (by decide)
  · exact ((format_salary_truthy_shapes ⟨some 500, none, some "USD"⟩).2.1
      (by decide) (by decide)).trans (by decide)
  · exact ((format_salary_truthy_shapes ⟨none, some 700, some "USD"⟩).2.2.1
      (by decide) (by decide)).trans (by decide)
  · exact (format_salary_truthy_shapes ⟨some 0, none, some "EUR"⟩).2.2.2.1
      (by decide) (by decide)

/-! ### C8: fetch_vacancies error behaviour -/

/-- C8 counterexample: `raise_for_status` raises only for status codes 400
and above, so a non-2xx response below 400 (e.g. a 300 with a JSON body)
is not turned into an empty list: its items are returned as-is. -/
theorem fetch_vacancies_claim_counterexample :
    (¬ (200 ≤ 300 ∧ 300 ≤ 299)) ∧
    fetch_vacancies (HttpResult.response 300
        (some [{ id := some "1", published_at := some "2024-01-01T10:00:00+0500",
                 salary := none }]))
      = [{ id := some "1", published_at := some "2024-01-01T10:00:00+0500",
           salary := none }] := by
  refine ⟨by decide, by decide⟩

/-- C8 (amended): on any transport error, undecodable body, or 4xx/5xx
response, `fetch_vacancies` returns an empty list (as a total function it
raises nothing), and that result is the very value a genuine zero-result
response produces. -/
theorem fetch_vacancies_failure_empty :
    fetch_vacancies HttpResult.transport_error = [] ∧
    (∀ status body_items, 400 ≤ status → status < 600 →
      fetch_vacancies (HttpResult.response status body_items) = []) ∧
    (∀ status, fetch_vacancies (HttpResult.response status none) = []) ∧
    fetch_vacancies (HttpResult.response 200 (some [])) = [] := by
  refine ⟨rfl, ?_, ?_, rfl⟩
  · intro status body_items h1 h2
    simp only [fetch_vacancies]
    rw [if_pos ⟨h1, h2⟩]
  · intro status
    by_cases h : 400 ≤ status ∧ status < 600 <;> simp [fetch_vacancies, h]

/-- Witness for C8 (amended) at a concrete failing response. -/
theorem fetch_vacancies_failure_empty_witness :
    fetch_vacancies (HttpResult.response 503
      (some [{ id := some "1", published_at := none, salary := none }])) = [] :=
  fetch_vacancies_failure_empty.2.1 503
    (some [{ id := some "1", published_at := none, salary := none }])
    (by decide) (by decide)

/-! ### Helper lemmas about the selection loop of check_new_vacancies -/

theorem mem_mark_vacancy_seen_iff (seen : List String) (a b : String) :
    a ∈ mark_vacancy_seen seen b ↔ a ∈ seen ∨ a = b := by
  by_cases hb : b ∈ seen
  · simp [mark_vacancy_seen, is_vacancy_seen, hb]
    intro h
    rw [h]
    exact hb
  · simp [mark_vacancy_seen, is_vacancy_seen, hb]

theorem mark_vacancy_seen_of_not_seen (seen : List String) (a : String) (h : a ∉ seen) :
    mark_vacancy_seen seen a = seen ++ [a] := by
  simp [mark_vacancy_seen, is_vacancy_seen, h]

theorem count_le_count_mark_vacancy_seen (seen : List String) (a b : String) :
    seen.count a ≤ (mark_vacancy_seen seen b).count a := by
  by_cases hb : b ∈ seen
  · simp [mark_vacancy_seen, is_vacancy_seen, hb]
  · simp [mark_vacancy_seen, is_vacancy_seen, hb, List.count_append]

theorem check_loop_cons_pos (v : Vacancy) (rest : List Vacancy) (seen run : List String)
    (h : (id_truthy (str_of_id v.id) && !(run.contains (str_of_id v.id))
        && !(is_vacancy_seen seen (str_of_id v.id))) = true) :
    check_loop (v :: rest) seen run
      = (v :: (check_loop rest (mark_vacancy_seen seen (str_of_id v.id))
            (str_of_id v.id :: run)).1,
         (check_loop rest (mark_vacancy_seen seen (str_of_id v.id))
            (str_of_id v.id :: run)).2) := by
  simp only [check_loop]
  rw [if_pos h]

theorem check_loop_cons_neg (v : Vacancy) (rest : List Vacancy) (seen run : List String)
    (h : (id_truthy (str_of_id v.id) && !(run.contains (str_of_id v.id))
        && !(is_vacancy_seen seen (str_of_id v.id))) = false) :
    check_loop (v :: rest) seen run = check_loop rest seen run := by
  simp only [check_loop]
  rw [if_neg (fun hcontra => by rw [hcontra] at h; simp at h)]

/-- Every item the selection loop keeps was neither recorded as seen in the
store at entry nor already in the per-run set. -/
theorem check_loop_mem_spec :
    ∀ (l : List Vacancy) (seen run : List String) (v : Vacancy),
      v ∈ (check_loop l seen run).1 →
      is_vacancy_seen seen (str_of_id v.id) = false ∧ str_of_id v.id ∉ run
  | [], seen, run, v, hv => by simp [check_loop] at hv
  | w :: rest, seen, run, v, hv => by
    by_cases hc : (id_truthy (str_of_id w.id) && !(run.contains (str_of_id w.id))
        && !(is_vacancy_seen seen (str_of_id w.id))) = true
    · rw [check_loop_cons_pos w rest seen run hc] at hv
      have hc' := hc
      simp only [Bool.and_eq_true, Bool.not_eq_true'] at hc'
      rcases List.mem_cons.mp hv with rfl | hv'
      · refine ⟨hc'.2, ?_⟩
        have hcont := hc'.1.2
        simp at hcont
        exact hcont
      · have ih := check_loop_mem_spec rest
          (mark_vacancy_seen seen (str_of_id w.id)) (str_of_id w.id :: run) v hv'
        constructor
        · rw [is_vacancy_seen_eq_false_iff]
          exact not_mem_of_not_mem_mark seen _ _
            ((is_vacancy_seen_eq_false_iff _ _).mp ih.1)
        · intro hr
          exact ih.2 (List.mem_cons_of_mem _ hr)
    · rw [check_loop_cons_neg w rest seen run (Bool.eq_false_iff.mpr hc)] at hv
      exact check_loop_mem_spec rest seen run v hv

/-- The identifiers the selection loop keeps are pairwise distinct. -/
theorem check_loop_ids_nodup :
    ∀ (l : List Vacancy) (seen run : List String),
      ((check_loop l seen run).1.map (fun v => str_of_id v.id)).Nodup
  | [], _, _ => by simp [check_loop]
  | w :: rest, seen, run => by
    by_cases hc : (id_truthy (str_of_id w.id) && !(run.contains (str_of_id w.id))
        && !(is_vacancy_seen seen (str_of_id w.id))) = true
    · rw [check_loop_cons_pos w rest seen run hc]
      simp only [List.map_cons, List.nodup_cons]
      refine ⟨?_, check_loop_ids_nodup rest _ _⟩
      intro hmem
      rcases List.mem_map.mp hmem with ⟨u, hu, hequ⟩
      have hrun := (check_loop_mem_spec rest
        (mark_vacancy_seen seen (str_of_id w.id)) (str_of_id w.id :: run) u hu).2
      apply hrun
      rw [hequ]
      exact List.mem_cons_self _ _
    · rw [check_loop_cons_neg w rest seen run (Bool.eq_false_iff.mpr hc)]
      exact check_loop_ids_nodup rest seen run

/-- A value present in the store at entry keeps its row count through the
whole selection loop. -/
theorem check_loop_count_of_mem :
    ∀ (l : List Vacancy) (seen run : List String) (a : String),
      a ∈ seen → (check_loop l seen run).2.count a = seen.count a
  | [], _, _, _, _ => by simp [check_loop]
  | w :: rest, seen, run, a, ha => by
    by_cases hc : (id_truthy (str_of_id w.id) && !(run.contains (str_of_id w.id))
        && !(is_vacancy_seen seen (str_of_id w.id))) = true
    · rw [check_loop_cons_pos w rest seen run hc]
      have hc' := hc
      simp only [Bool.and_eq_true, Bool.not_eq_true'] at hc'
      have hwn : str_of_id w.id ∉ seen := (is_vacancy_seen_eq_false_iff _ _).mp hc'.2
      have hne : a ≠ str_of_id w.id := fun h => hwn (h ▸ ha)
      rw [check_loop_count_of_mem rest _ _ a (mem_mark_vacancy_seen_of_mem _ _ _ ha)]
      exact count_mark_vacancy_seen_other seen a _ hne
    · rw [check_loop_cons_neg w rest seen run (Bool.eq_false_iff.mpr hc)]
      exact check_loop_count_of_mem rest seen run a ha

/-- The store only grows along the selection loop. -/
theorem mem_check_loop_store :
    ∀ (l : List Vacancy) (seen run : List String) (a : String),
      a ∈ seen → a ∈ (check_loop l seen run).2
  | [], _, _, _, ha => by simpa [check_loop] using ha
  | w :: rest, seen, run, a, ha => by
    by_cases hc : (id_truthy (str_of_id w.id) && !(run.contains (str_of_id w.id))
        && !(is_vacancy_seen seen (str_of_id w.id))) = true
    · rw [check_loop_cons_pos w rest seen run hc]
      exact mem_check_loop_store rest _ _ a (mem_mark_vacancy_seen_of_mem _ _ _ ha)
    · rw [check_loop_cons_neg w rest seen run (Bool.eq_false_iff.mpr hc)]
      exact mem_check_loop_store rest seen run a ha

/-- Every kept identifier had no row at entry and exactly one row in the
final store. -/
theorem check_loop_count_one :
    ∀ (l : List Vacancy) (seen run : List String) (a : String),
      a ∈ (check_loop l seen run).1.map (fun v => str_of_id v.id) →
      seen.count a = 0 ∧ (check_loop l seen run).2.count a = 1
  | [], _, _, _, ha => by simp [check_loop] at ha
  | w :: rest, seen, run, a, ha => by
    by_cases hc : (id_truthy (str_of_id w.id) && !(run.contains (str_of_id w.id))
        && !(is_vacancy_seen seen (str_of_id w.id))) = true
    · rw [check_loop_cons_pos w rest seen run hc] at ha ⊢
      have hc' := hc
      simp only [Bool.and_eq_true, Bool.not_eq_true'] at hc'
      have hwn : str_of_id w.id ∉ seen := (is_vacancy_seen_eq_false_iff _ _).mp hc'.2
      simp only [List.map_cons, List.mem_cons] at ha
      rcases ha with rfl | ha'
      · have h0 : seen.count (str_of_id w.id) = 0 := List.count_eq_zero.mpr hwn
        refine ⟨h0, ?_⟩
        rw [check_loop_count_of_mem rest _ _ _ (mem_mark_vacancy_seen_self seen _),
          mark_vacancy_seen_of_not_seen seen _ hwn, List.count_append]
        simp [h0]
      · have ih := check_loop_count_one rest
          (mark_vacancy_seen seen (str_of_id w.id)) (str_of_id w.id :: run) a ha'
        refine ⟨?_, ih.2⟩
        have hle := count_le_count_mark_vacancy_seen seen a (str_of_id w.id)
        omega
    · rw [check_loop_cons_neg w rest seen run (Bool.eq_false_iff.mpr hc)] at ha ⊢
      exact check_loop_count_one rest seen run a ha

/-- A fetched item whose id string is truthy and unseen is kept unless its
id was already in the per-run set. -/
theorem check_loop_complete :
    ∀ (l : List Vacancy) (seen run : List String) (v : Vacancy),
      v ∈ l → id_truthy (str_of_id v.id) = true → str_of_id v.id ∉ seen →
      str_of_id v.id ∈ (check_loop l seen run).1.map (fun x => str_of_id x.id)
        ∨ str_of_id v.id ∈ run
  | [], _, _, _, hv, _, _ => absurd hv (List.not_mem_nil _)
  | w :: rest, seen, run, v, hv, htr, hns => by
    by_cases hc : (id_truthy (str_of_id w.id) && !(run.contains (str_of_id w.id))
        && !(is_vacancy_seen seen (str_of_id w.id))) = true
    · rw [check_loop_cons_pos w rest seen run hc]
      by_cases heq : str_of_id v.id = str_of_id w.id
      · left
        simp only [List.map_cons, List.mem_cons]
        exact Or.inl heq
      · have hv' : v ∈ rest := by
          rcases List.mem_cons.mp hv with rfl | h'
          · exact absurd rfl heq
          · exact h'
        have hns' : str_of_id v.id ∉ mark_vacancy_seen seen (str_of_id w.id) := by
          intro hmem
          rcases (mem_mark_vacancy_seen_iff seen _ _).mp hmem with h | h
          · exact hns h
          · exact heq h
        rcases check_loop_complete rest _ (str_of_id w.id :: run) v hv' htr hns' with h | h
        · left
          simp only [List.map_cons, List.mem_cons]
          exact Or.inr h
        · rcases List.mem_cons.mp h with h' | h'
          · exact absurd h' heq
          · exact Or.inr h'
    · rw [check_loop_cons_neg w rest seen run (Bool.eq_false_iff.mpr hc)]
      rcases List.mem_cons.mp hv with rfl | hv'
      · right
        have hseen : is_vacancy_seen seen (str_of_id v.id) = false :=
          (is_vacancy_seen_eq_false_iff _ _).mpr hns
        simp only [htr, hseen, Bool.not_false, Bool.and_true, Bool.true_and,
          Bool.not_eq_false'] at hc
        simpa using hc
      · exact check_loop_complete rest seen run v hv' htr hns

/-- At most one id-less item is kept per cycle. -/
theorem check_loop_idless_le_one :
    ∀ (l : List Vacancy) (seen run : List String),
      (check_loop l seen run).1.countP (fun v => decide (v.id = none)) ≤ 1
  | [], _, _ => by simp [check_loop]
  | w :: rest, seen, run => by
    by_cases hc : (id_truthy (str_of_id w.id) && !(run.contains (str_of_id w.id))
        && !(is_vacancy_seen seen (str_of_id w.id))) = true
    · rw [check_loop_cons_pos w rest seen run hc]
      by_cases hw : w.id = none
      · have hz : (check_loop rest (mark_vacancy_seen seen (str_of_id w.id))
            (str_of_id w.id :: run)).1.countP (fun v => decide (v.id = none)) = 0 := by
          rw [List.countP_eq_zero]
          intro u hu hcontra
          have hid : u.id = none := by simpa using hcontra
          have hrun := (check_loop_mem_spec rest
            (mark_vacancy_seen seen (str_of_id w.id)) (str_of_id w.id :: run) u hu).2
          apply hrun
          rw [hid, hw]
          exact List.mem_cons_self _ _
        rw [List.countP_cons, hz]
        simp [hw]
      · have hrest := check_loop_idless_le_one rest
          (mark_vacancy_seen seen (str_of_id w.id)) (str_of_id w.id :: run)
        rw [List.countP_cons]
        simpa [hw] using hrest
    · rw [check_loop_cons_neg w rest seen run (Bool.eq_false_iff.mpr hc)]
      exact check_loop_idless_le_one rest seen run

/-! ### Helper lemmas about the stable descending sort -/

theorem chars_le_refl : ∀ a : List Char, chars_le a a = true
  | [] => rfl
  | c :: cs => by simp [chars_le, chars_le_refl cs]

theorem str_le_refl (a : String) : str_le a a = true :=
  chars_le_refl a.data

theorem chars_le_total : ∀ a b : List Char, chars_le a b = true ∨ chars_le b a = true
  | [], _ => Or.inl rfl
  | _ :: _, [] => Or.inr rfl
  | c :: cs, d :: ds => by
    by_cases h1 : c.toNat < d.toNat
    · left
      simp [chars_le, h1]
    · by_cases h2 : d.toNat < c.toNat
      · right
        simp [chars_le, h2]
      · rcases chars_le_total cs ds with h | h
        · left
          simp [chars_le, h1, h2, h]
        · right
          simp [chars_le, h1, h2, h]

theorem str_le_total (a b : String) : str_le a b = true ∨ str_le b a = true :=
  chars_le_total a.data b.data

theorem chars_le_trans :
    ∀ a b c : List Char, chars_le a b = true → chars_le b c = true → chars_le a c = true
  | [], _, _, _, _ => rfl
  | _ :: _, [], _, h1, _ => by simp [chars_le] at h1
  | _ :: _, _ :: _, [], _, h2 => by simp [chars_le] at h2
  | x :: xs, y :: ys, z :: zs, h1, h2 => by
    have h1' : x.toNat < y.toNat ∨ (x.toNat = y.toNat ∧ chars_le xs ys = true) := by
      by_cases hxy : x.toNat < y.toNat
      · exact Or.inl hxy
      · by_cases hyx : y.toNat < x.toNat
        · simp [chars_le, hxy, hyx] at h1
        · exact Or.inr ⟨by omega, by simpa [chars_le, hxy, hyx] using h1⟩
    have h2' : y.toNat < z.toNat ∨ (y.toNat = z.toNat ∧ chars_le ys zs = true) := by
      by_cases hyz : y.toNat < z.toNat
      · exact Or.inl hyz
      · by_cases hzy : z.toNat < y.toNat
        · simp [chars_le, hyz, hzy] at h2
        · exact Or.inr ⟨by omega, by simpa [chars_le, hyz, hzy] using h2⟩
    rcases h1' with h | ⟨he1, hr1⟩
    · rcases h2' with h' | ⟨he2, _⟩
      · simp [chars_le, show x.toNat < z.toNat by omega]
      · simp [chars_le, show x.toNat < z.toNat by omega]
    · rcases h2' with h' | ⟨he2, hr2⟩
      · simp [chars_le, show x.toNat < z.toNat by omega]
      · simp [chars_le, show ¬ x.toNat < z.toNat by omega, show ¬ z.toNat < x.toNat by omega]
        exact chars_le_trans xs ys zs hr1 hr2

theorem str_le_trans (a b c : String) :
    str_le a b = true → str_le b c = true → str_le a c = true :=
  chars_le_trans a.data b.data c.data

/-- The sorted output is pairwise descending on the publish key. -/
theorem sort_vacancies_sorted (l : List Vacancy) :
    List.Sorted (fun a b => str_le (published_key b) (published_key a) = true)
      (sort_vacancies l) := by
  haveI : IsTotal Vacancy (fun a b => str_le (published_key b) (published_key a) = true) :=
    ⟨fun a b => str_le_total (published_key b) (published_key a)⟩
  haveI : IsTrans Vacancy (fun a b => str_le (published_key b) (published_key a) = true) :=
    ⟨fun a b c hab hbc => str_le_trans _ _ _ hbc hab⟩
  exact List.sorted_insertionSort _ l

theorem filter_orderedInsert_of_not (p : Vacancy → Bool) (a : Vacancy) (hpa : p a = false) :
    ∀ L : List Vacancy,
      ((List.orderedInsert (fun x y => str_le (published_key y) (published_key x) = true)
        a L).filter p) = L.filter p
  | [] => by simp [hpa]
  | b :: L' => by
    by_cases hr : str_le (published_key b) (published_key a) = true
    · simp [List.orderedInsert, hr, hpa]
    · simp only [List.orderedInsert, if_neg hr]
      simp [List.filter_cons, filter_orderedInsert_of_not p a hpa L']

theorem filter_orderedInsert_key (c : String) (a : Vacancy) (ha : published_key a = c) :
    ∀ L : List Vacancy,
      ((List.orderedInsert (fun x y => str_le (published_key y) (published_key x) = true)
          a L).filter (fun v => decide (published_key v = c)))
        = a :: L.filter (fun v => decide (published_key v = c))
  | [] => by simp [ha]
  | b :: L' => by
    by_cases hr : str_le (published_key b) (published_key a) = true
    · simp only [List.orderedInsert, if_pos hr]
      simp [List.filter_cons, ha]
    · have hbc : ¬ (published_key b = c) := by
        intro h
        apply hr
        rw [h, ← ha]
        exact str_le_refl _
      simp only [List.orderedInsert, if_neg hr, List.filter_cons]
      simp [hbc, filter_orderedInsert_key c a ha L']

/-- Stability: restricting the sorted output to the items of any one key
value returns them in source order. -/
theorem filter_sort_vacancies (c : String) :
    ∀ l : List Vacancy,
      ((sort_vacancies l).filter (fun v => decide (published_key v = c)))
        = l.filter (fun v => decide (published_key v = c))
  | [] => rfl
  | a :: l => by
    simp only [sort_vacancies, List.insertionSort]
    have hrec := filter_sort_vacancies c l
    simp only [sort_vacancies] at hrec
    by_cases ha : published_key a = c
    · rw [filter_orderedInsert_key c a ha, hrec]
      simp [List.filter_cons, ha]
    · rw [filter_orderedInsert_of_not _ a (by simp [ha]), hrec]
      simp [List.filter_cons, ha]

/-- C4: before notifying, both the poll cycle and the catch-up apply the
same stable descending sort on `published_at`: the output is pairwise
descending on the key, ties keep source order, and the spec's example with
timestamps 2024-01-03, 2024-01-01, 2024-01-02 sorts to 03, 02, 01. -/
theorem sort_published_desc_stable :
    (∀ l : List Vacancy,
      List.Sorted (fun a b => str_le (published_key b) (published_key a) = true)
        (sort_vacancies l)) ∧
    (∀ (c : String) (l : List Vacancy),
      ((sort_vacancies l).filter (fun v => decide (published_key v = c)))
        = l.filter (fun v => decide (published_key v = c))) ∧
    (∀ (fetch : String → String → List Vacancy) (seen : List String) (ok : Nat → Bool),
      (check_new_vacancies fetch seen).1
          = sort_vacancies (check_loop (fetch_all fetch) seen []).1 ∧
      (send_existing_vacancies_to_user fetch seen ok).1
          = catch_up_send_phase
              (sort_vacancies (catch_up_collect (fetch_all fetch) seen []).1) ok) ∧
    sort_vacancies [vac_jan03, vac_jan01, vac_jan02] = [vac_jan03, vac_jan02, vac_jan01] :=
  ⟨sort_vacancies_sorted, filter_sort_vacancies,
    fun _ _ _ => ⟨rfl, rfl⟩, by decide⟩

/-! ### C1, C2 and C9: the poll cycle's selection -/

/-- C1: no item selected for broadcast by a poll cycle was recorded as seen
in the store when the cycle started: every item whose id passes
`is_vacancy_seen` is excluded from `new_vacancies` and hence from
notification. -/
theorem check_new_vacancies_excludes_seen
    (fetch : String → String → List Vacancy) (seen : List String) (v : Vacancy)
    (hv : v ∈ (check_new_vacancies fetch seen).1) :
    is_vacancy_seen seen (str_of_id v.id) = false := by
  have hperm : List.Perm (sort_vacancies (check_loop (fetch_all fetch) seen []).1)
      (check_loop (fetch_all fetch) seen []).1 := List.perm_insertionSort _ _
  have hv1 : v ∈ sort_vacancies (check_loop (fetch_all fetch) seen []).1 := hv
  exact (check_loop_mem_spec _ _ _ v (hperm.mem_iff.mp hv1)).1

/-- Witness for C1: a cycle seeded with store `["7"]` and one fetched item
with id `"42"` selects that item, whose id was indeed unseen. -/
theorem check_new_vacancies_excludes_seen_witness :
    is_vacancy_seen ["7"] (str_of_id (some "42")) = false :=
  check_new_vacancies_excludes_seen
    (fun _ _ => [⟨some "42", some "2024-01-05T00:00:00Z", none⟩]) ["7"]
    ⟨some "42", some "2024-01-05T00:00:00Z", none⟩ (by decide)

/-- C2: within a single poll cycle the selected identifiers are pairwise
distinct (each is appended to the broadcast list exactly once), every
selected identifier ends up with exactly one row in the store (marked seen
exactly once), and any identifier returned by some query/filter pair whose
id string is truthy and unseen is selected. -/
theorem check_new_vacancies_dedup_per_cycle
    (fetch : String → String → List Vacancy) (seen : List String) :
    ((check_new_vacancies fetch seen).1.map (fun v => str_of_id v.id)).Nodup ∧
    (∀ a, a ∈ (check_new_vacancies fetch seen).1.map (fun v => str_of_id v.id) →
      seen.count a = 0 ∧ (check_new_vacancies fetch seen).2.count a = 1) ∧
    (∀ v, v ∈ fetch_all fetch → id_truthy (str_of_id v.id) = true →
      str_of_id v.id ∉ seen →
      str_of_id v.id ∈ (check_new_vacancies fetch seen).1.map (fun v => str_of_id v.id)) := by
  have hperm : List.Perm (sort_vacancies (check_loop (fetch_all fetch) seen []).1)
      (check_loop (fetch_all fetch) seen []).1 := List.perm_insertionSort _ _
  have hmap : List.Perm ((sort_vacancies (check_loop (fetch_all fetch) seen []).1).map
        (fun v => str_of_id v.id))
      (((check_loop (fetch_all fetch) seen []).1).map (fun v => str_of_id v.id)) :=
    hperm.map _
  refine ⟨?_, ?_, ?_⟩
  · exact hmap.nodup_iff.mpr (check_loop_ids_nodup _ _ _)
  · intro a ha
    exact check_loop_count_one _ _ _ a (hmap.mem_iff.mp ha)
  · intro v hv htr hns
    rcases check_loop_complete (fetch_all fetch) seen [] v hv htr hns with h | h
    · exact hmap.mem_iff.mpr h
    · simp at h

/-- Witness for C2: all six query/filter pairs return the same id `"1"`,
which is selected once, stored once, and present in the broadcast list. -/
theorem check_new_vacancies_dedup_per_cycle_witness :
    ((check_new_vacancies (fun _ _ => [vac_jan01]) []).1.map
      (fun v => str_of_id v.id)).Nodup ∧
    ([] : List String).count "1" = 0 ∧
    (check_new_vacancies (fun _ _ => [vac_jan01]) []).2.count "1" = 1 ∧
    "1" ∈ (check_new_vacancies (fun _ _ => [vac_jan01]) []).1.map
      (fun v => str_of_id v.id) := by
  obtain ⟨h1, h2, h3⟩ := check_new_vacancies_dedup_per_cycle (fun _ _ => [vac_jan01]) []
  refine ⟨h1, (h2 "1" (by decide)).1, (h2 "1" (by decide)).2, ?_⟩
  exact h3 vac_jan01 (by decide) (by decide) (by decide)

/-- C9: an absent id stringifies to the truthy string "None", so an id-less
record is not skipped: whenever any fetched record (at any position of the
cycle's results) is id-less and "None" is unseen, a record whose id string
is "None" is selected and "None" is persisted in the store; at most one
id-less record is kept per cycle; and whenever a selected record is
id-less, "None" was necessarily unseen at cycle start (so once "None" is
stored, id-less records are silently dropped in every later cycle). -/
theorem check_new_vacancies_idless (fetch : String → String → List Vacancy)
    (seen : List String) :
    (∀ v, v ∈ (check_new_vacancies fetch seen).1 → v.id = none →
      is_vacancy_seen seen "None" = false) ∧
    ((check_new_vacancies fetch seen).1.countP (fun v => decide (v.id = none)) ≤ 1) ∧
    (∀ v, v ∈ fetch_all fetch → v.id = none →
      is_vacancy_seen seen "None" = false →
      (∃ w, w ∈ (check_new_vacancies fetch seen).1 ∧ str_of_id w.id = "None") ∧
      "None" ∈ (check_new_vacancies fetch seen).2) := by
  have hperm : List.Perm (sort_vacancies (check_loop (fetch_all fetch) seen []).1)
      (check_loop (fetch_all fetch) seen []).1 := List.perm_insertionSort _ _
  refine ⟨?_, ?_, ?_⟩
  · intro v hv hid
    have hv1 : v ∈ sort_vacancies (check_loop (fetch_all fetch) seen []).1 := hv
    have hsp := (check_loop_mem_spec _ _ _ v (hperm.mem_iff.mp hv1)).1
    rw [hid] at hsp
    exact hsp
  · have heq : (check_new_vacancies fetch seen).1.countP (fun v => decide (v.id = none))
        = (check_loop (fetch_all fetch) seen []).1.countP (fun v => decide (v.id = none)) :=
      hperm.countP_eq _
    rw [heq]
    exact check_loop_idless_le_one _ _ _
  · intro v hv hid hns
    have htr : id_truthy (str_of_id v.id) = true := by
      rw [hid]
      decide
    have hns' : str_of_id v.id ∉ seen := by
      rw [hid]
      exact (is_vacancy_seen_eq_false_iff _ _).mp hns
    rcases check_loop_complete (fetch_all fetch) seen [] v hv htr hns' with h | h
    · constructor
      · obtain ⟨w, hw, hweq⟩ := List.mem_map.mp h
        refine ⟨w, hperm.mem_iff.mpr hw, ?_⟩
        rw [hid] at hweq
        exact hweq
      · show "None" ∈ (check_loop (fetch_all fetch) seen []).2
        have hc := (check_loop_count_one (fetch_all fetch) seen [] _ h).2
        rw [hid] at hc
        simp only [str_of_id] at hc
        by_contra hno
        have h0 : (check_loop (fetch_all fetch) seen []).2.count "None" = 0 :=
          List.count_eq_zero.mpr hno
        omega
    · simp at h

/-- Witness for C9: an id-less fetched record with empty store: it is
selected, "None" is stored, and no second id-less record is kept. -/
theorem check_new_vacancies_idless_witness :
    is_vacancy_seen ([] : List String) "None" = false ∧
    ((check_new_vacancies (fun _ _ => [vac_noid]) []).1.countP
      (fun v => decide (v.id = none)) ≤ 1) ∧
    vac_noid ∈ (check_new_vacancies (fun _ _ => [vac_noid]) []).1 ∧
    "None" ∈ (check_new_vacancies (fun _ _ => [vac_noid]) []).2 := by
  obtain ⟨h1, h2, h3⟩ := check_new_vacancies_idless (fun _ _ => [vac_noid]) []
  have h4 := h3 vac_noid (by decide) (by decide) (by decide)
  have hmem : vac_noid ∈ (check_new_vacancies (fun _ _ => [vac_noid]) []).1 := by decide
  exact ⟨h1 vac_noid hmem (by decide), h2, hmem, h4.2⟩

/-! ### C6: uniqueness of subscriber records -/

theorem update_existing_user_telegram_id (u : User) (un fn : Option String) :
    (update_existing_user u un fn).telegram_id = u.telegram_id := by
  simp only [update_existing_user]
  split_ifs <;> rfl

theorem update_existing_user_active (u : User) (un fn : Option String) :
    (update_existing_user u un fn).is_active = true := rfl

theorem get_or_create_user_countP (telegram_id : Int) (un fn : Option String) :
    ∀ users : List User,
      users.countP (fun u => decide (u.telegram_id = telegram_id)) ≤ 1 →
      (get_or_create_user telegram_id un fn users).countP
        (fun u => decide (u.telegram_id = telegram_id)) = 1
  | [], _ => by simp [get_or_create_user]
  | u :: rest, h => by
    by_cases hu : u.telegram_id = telegram_id
    · simp only [get_or_create_user, if_pos hu]
      rw [List.countP_cons]
      have hrest : rest.countP (fun u => decide (u.telegram_id = telegram_id)) = 0 := by
        rw [List.countP_cons] at h
        have hone : (if (fun u => decide (u.telegram_id = telegram_id)) u = true
            then 1 else 0) = 1 := by
          simp [hu]
        rw [hone] at h
        omega
      simp [hrest, update_existing_user_telegram_id, hu]
    · simp only [get_or_create_user, if_neg hu]
      rw [List.countP_cons]
      have h' : rest.countP (fun u => decide (u.telegram_id = telegram_id)) ≤ 1 := by
        rw [List.countP_cons] at h
        omega
      rw [get_or_create_user_countP telegram_id un fn rest h']
      simp [hu]

theorem get_or_create_user_found (telegram_id : Int) (un fn : Option String) :
    ∀ (pre : List User) (u0 : User) (post : List User),
      (∀ u ∈ pre, u.telegram_id ≠ telegram_id) → u0.telegram_id = telegram_id →
      get_or_create_user telegram_id un fn (pre ++ u0 :: post)
        = pre ++ update_existing_user u0 un fn :: post
  | [], u0, post, _, hu0 => by
    simp only [List.nil_append, get_or_create_user, if_pos hu0]
  | p :: pre, u0, post, hpre, hu0 => by
    simp only [List.cons_append, get_or_create_user,
      if_neg (hpre p (List.mem_cons_self _ _)), List.append_eq]
    rw [get_or_create_user_found telegram_id un fn pre u0 post
      (fun u hu => hpre u (List.mem_cons_of_mem _ hu)) hu0]

/-- C6: `get_or_create_user` creates at most one row per identity: on a
store respecting the uniqueness constraint the result has exactly one row
for the identity; when a row already exists it is updated in place (same
list shape, no insertion) with its `is_active` flag set back to true. -/
theorem get_or_create_user_unique (telegram_id : Int) (username first_name : Option String) :
    (∀ users : List User,
      users.countP (fun u => decide (u.telegram_id = telegram_id)) ≤ 1 →
      (get_or_create_user telegram_id username first_name users).countP
        (fun u => decide (u.telegram_id = telegram_id)) = 1) ∧
    (∀ (pre : List User) (u0 : User) (post : List User),
      (∀ u ∈ pre, u.telegram_id ≠ telegram_id) → u0.telegram_id = telegram_id →
      get_or_create_user telegram_id username first_name (pre ++ u0 :: post)
        = pre ++ update_existing_user u0 username first_name :: post ∧
      (get_or_create_user telegram_id username first_name (pre ++ u0 :: post)).length
        = (pre ++ u0 :: post).length) ∧
    (∀ u : User, (update_existing_user u username first_name).is_active = true) := by
  refine ⟨get_or_create_user_countP telegram_id username first_name, ?_,
    fun u => update_existing_user_active u username first_name⟩
  intro pre u0 post hpre hu0
  have heq := get_or_create_user_found telegram_id username first_name pre u0 post hpre hu0
  refine ⟨heq, ?_⟩
  rw [heq]
  simp

/-- Witness for C6: a repeat subscribe on a one-row store with the matching
identity updates in place, keeps exactly one row, and reactivates it. -/
theorem get_or_create_user_unique_witness :
    (get_or_create_user 5 (some "new") none
      [⟨5, some "old", some "Bob", false⟩]).countP
        (fun u => decide (u.telegram_id = 5)) = 1 ∧
    get_or_create_user 5 (some "new") none [⟨5, some "old", some "Bob", false⟩]
      = [update_existing_user ⟨5, some "old", some "Bob", false⟩ (some "new") none] ∧
    (update_existing_user ⟨5, some "old", some "Bob", false⟩ (some "new") none).is_active
      = true := by
  obtain ⟨h1, h2, h3⟩ := get_or_create_user_unique 5 (some "new") none
  have h4 := h2 [] ⟨5, some "old", some "Bob", false⟩ [] (by simp) (by decide)
  exact ⟨h1 _ (by decide), h4.1, h3 _⟩

/-! ### C7: the broadcast loop -/

theorem deactivate_user_map_id (telegram_id : Int) :
    ∀ db : List User,
      (deactivate_user telegram_id db).map (·.telegram_id) = db.map (·.telegram_id)
  | [] => rfl
  | u :: rest => by
    by_cases h : u.telegram_id = telegram_id
    · simp [deactivate_user, h]
    · simp [deactivate_user, h, deactivate_user_map_id telegram_id rest]

theorem mem_deactivate_user :
    ∀ (db : List User) (telegram_id : Int) (u : User),
      u ∈ deactivate_user telegram_id db →
      u ∈ db ∨ ∃ w ∈ db, u = { w with is_active := false }
  | [], _, _, h => by simp [deactivate_user] at h
  | w :: rest, tid, u, h => by
    by_cases hw : w.telegram_id = tid
    · simp only [deactivate_user, if_pos hw] at h
      rcases List.mem_cons.mp h with rfl | h'
      · exact Or.inr ⟨w, List.mem_cons_self _ _, rfl⟩
      · exact Or.inl (List.mem_cons_of_mem _ h')
    · simp only [deactivate_user, if_neg hw] at h
      rcases List.mem_cons.mp h with rfl | h'
      · exact Or.inl (List.mem_cons_self _ _)
      · rcases mem_deactivate_user rest tid u h' with h'' | ⟨w', hw', he⟩
        · exact Or.inl (List.mem_cons_of_mem _ h'')
        · exact Or.inr ⟨w', List.mem_cons_of_mem _ hw', he⟩

theorem deactivate_user_inactive (telegram_id : Int) :
    ∀ db : List User, (db.map (·.telegram_id)).Nodup →
      ∀ u ∈ deactivate_user telegram_id db, u.telegram_id = telegram_id →
      u.is_active = false
  | [], _, u, h, _ => by simp [deactivate_user] at h
  | w :: rest, hnd, u, hu, hut => by
    rw [List.map_cons, List.nodup_cons] at hnd
    by_cases hw : w.telegram_id = telegram_id
    · simp only [deactivate_user, if_pos hw] at hu
      rcases List.mem_cons.mp hu with rfl | h'
      · rfl
      · exfalso
        apply hnd.1
        have hm : u.telegram_id ∈ rest.map (fun x => x.telegram_id) :=
          List.mem_map_of_mem _ h'
        rw [hut] at hm
        rw [hw]
        exact hm
    · simp only [deactivate_user, if_neg hw] at hu
      rcases List.mem_cons.mp hu with rfl | h'
      · exact absurd hut hw
      · exact deactivate_user_inactive telegram_id rest hnd.2 u h' hut

theorem deactivate_preserves_inactive (t t' : Int) (db : List User)
    (hP : ∀ u ∈ db, u.telegram_id = t → u.is_active = false) :
    ∀ u ∈ deactivate_user t' db, u.telegram_id = t → u.is_active = false := by
  intro u hu hut
  rcases mem_deactivate_user db t' u hu with h | ⟨w, hw, he⟩
  · exact hP u h hut
  · rw [he]

theorem send_loop_count (send : Int → SendOutcome) :
    ∀ (lst : List (Int × Option String × Option String)) (c : Nat) (db : List User),
      (send_loop send lst c db).1
        = c + (lst.filter (fun t => decide (send t.1 = SendOutcome.success))).length
  | [], c, db => by simp [send_loop]
  | (tid, un, fn) :: rest, c, db => by
    cases hs : send tid
    case success =>
      simp only [send_loop, hs]
      rw [send_loop_count send rest (c + 1) db]
      simp [List.filter_cons, hs]
      omega
    case telegram_error b =>
      simp only [send_loop, hs]
      cases b
      · rw [if_neg Bool.false_ne_true, send_loop_count send rest c db]
        simp [List.filter_cons, hs]
      · rw [if_pos rfl, send_loop_count send rest c _]
        simp [List.filter_cons, hs]

theorem send_loop_preserves_inactive (send : Int → SendOutcome) (t : Int) :
    ∀ (lst : List (Int × Option String × Option String)) (c : Nat) (db : List User),
      (∀ u ∈ db, u.telegram_id = t → u.is_active = false) →
      ∀ u ∈ (send_loop send lst c db).2, u.telegram_id = t → u.is_active = false
  | [], c, db, hP => by simpa [send_loop] using hP
  | (tid, un, fn) :: rest, c, db, hP => by
    cases hs : send tid
    case success =>
      simp only [send_loop, hs]
      exact send_loop_preserves_inactive send t rest (c + 1) db hP
    case telegram_error b =>
      simp only [send_loop, hs]
      cases b
      · simpa using send_loop_preserves_inactive send t rest c db hP
      · simpa using send_loop_preserves_inactive send t rest c _
          (deactivate_preserves_inactive t tid db hP)

theorem send_loop_deactivates (send : Int → SendOutcome) (t : Int) :
    ∀ (lst : List (Int × Option String × Option String)) (c : Nat) (db : List User),
      (db.map (·.telegram_id)).Nodup →
      (∃ p ∈ lst, p.1 = t) → send t = SendOutcome.telegram_error true →
      ∀ u ∈ (send_loop send lst c db).2, u.telegram_id = t → u.is_active = false
  | [], _, _, _, hex, _ => by
    rcases hex with ⟨p, hp, _⟩
    simp at hp
  | (tid, un, fn) :: rest, c, db, hnd, hex, hsend => by
    by_cases htid : tid = t
    · subst htid
      simp only [send_loop, hsend, if_pos rfl]
      exact send_loop_preserves_inactive send tid rest c _
        (deactivate_user_inactive tid db hnd)
    · rcases hex with ⟨p, hp, hpt⟩
      rcases List.mem_cons.mp hp with rfl | hp'
      · exact absurd hpt htid
      · cases hs : send tid with
        | success =>
          simp only [send_loop, hs]
          exact send_loop_deactivates send t rest _ db hnd ⟨p, hp', hpt⟩ hsend
        | telegram_error b =>
          simp only [send_loop, hs]
          cases b
          · rw [if_neg Bool.false_ne_true]
            exact send_loop_deactivates send t rest c db hnd ⟨p, hp', hpt⟩ hsend
          · rw [if_pos rfl]
            have hnd' : ((deactivate_user tid db).map (·.telegram_id)).Nodup := by
              rw [deactivate_user_map_id]
              exact hnd
            exact send_loop_deactivates send t rest c _ hnd' ⟨p, hp', hpt⟩ hsend

/-- C7: `send_to_all_users` walks the whole active list sequentially: the
returned count is the number of successful deliveries over the entire list
(a failure never aborts the remaining sends), and every active recipient
whose delivery fails with a blocked/deactivated indication is deactivated
in the resulting user table. -/
theorem send_to_all_users_spec (send : Int → SendOutcome) (db : List User)
    (hnd : (db.map (·.telegram_id)).Nodup) :
    (send_to_all_users send db).1
      = ((get_active_users db).filter
          (fun t => decide (send t.1 = SendOutcome.success))).length ∧
    (∀ p ∈ get_active_users db, send p.1 = SendOutcome.telegram_error true →
      ∀ u ∈ (send_to_all_users send db).2, u.telegram_id = p.1 →
        u.is_active = false) := by
  constructor
  · have h := send_loop_count send (get_active_users db) 0 db
    simpa [send_to_all_users] using h
  · intro p hp hsend
    exact send_loop_deactivates send p.1 (get_active_users db) 0 db hnd
      ⟨p, hp, rfl⟩ hsend

/-- Witness for C7: two active users; delivery to user 1 fails with a
blocked indication, user 2 succeeds: one success is counted and user 1's
row ends up inactive. -/
theorem send_to_all_users_spec_witness :
    (send_to_all_users
        (fun tid => if tid = 1 then SendOutcome.telegram_error true else .success)
        [⟨1, none, none, true⟩, ⟨2, none, none, true⟩]).1 = 1 ∧
    (⟨1, none, none, false⟩ : User).is_active = false := by
  obtain ⟨h1, h2⟩ := send_to_all_users_spec
    (fun tid => if tid = 1 then SendOutcome.telegram_error true else .success)
    [⟨1, none, none, true⟩, ⟨2, none, none, true⟩] (by decide)
  refine ⟨h1.trans (by decide), ?_⟩
  exact h2 (1, none, none) (by decide) (by decide) ⟨1, none, none, false⟩
    (by decide) (by decide)

/-! ### C10: failure behaviour of the catch-up send phase -/

theorem send_items_exists_suffix (ok : Nat → Bool) :
    ∀ (l : List Vacancy) (attempt : Nat), ∃ t, l = send_items ok l attempt ++ t
  | [], _ => ⟨[], rfl⟩
  | v :: rest, attempt => by
    by_cases h : ok attempt = true
    · rcases send_items_exists_suffix ok rest (attempt + 1) with ⟨t, ht⟩
      refine ⟨t, ?_⟩
      simp only [send_items, if_pos h, List.cons_append]
      rw [← ht]
    · exact ⟨v :: rest, by simp [send_items, h]⟩

theorem send_items_eq_take (ok : Nat → Bool) :
    ∀ (l : List Vacancy) (attempt : Nat),
      send_items ok l attempt = l.take (leading_ok ok attempt l.length)
  | [], _ => by simp [send_items]
  | v :: rest, attempt => by
    by_cases h : ok attempt = true
    · simp [send_items, h, leading_ok, send_items_eq_take ok rest (attempt + 1)]
    · simp [send_items, h, leading_ok]

theorem send_items_all_ok (ok : Nat → Bool) (hall : ∀ n, ok n = true) :
    ∀ (l : List Vacancy) (attempt : Nat), send_items ok l attempt = l
  | [], _ => rfl
  | v :: rest, attempt => by
    simp [send_items, hall attempt, send_items_all_ok ok hall rest (attempt + 1)]

/-- C10: catch-up send behaviour: a failed header send aborts the whole
catch-up with nothing sent and no summary; the delivered items are always
an initial prefix of the first 20 sorted items, cut at the first failed
attempt; with all sends succeeding all of the first 20 go out; the
trailing summary is attempted exactly when more than 20 items were
collected and the header went out, regardless of mid-list failures; and
the marked-seen store written by the catch-up does not depend on the send
outcomes at all. -/
theorem catch_up_send_failure_spec (vs : List Vacancy) (ok : Nat → Bool)
    (fetch : String → String → List Vacancy) (seen : List String) (ok2 : Nat → Bool) :
    (ok 0 = false → catch_up_send_phase vs ok
        = { header_sent := false, items_sent := [], summary_attempted := false }) ∧
    (∃ t, vs.take 20 = (catch_up_send_phase vs ok).items_sent ++ t) ∧
    (ok 0 = true → vs ≠ [] →
      (catch_up_send_phase vs ok).items_sent
        = (vs.take 20).take (leading_ok ok 1 (vs.take 20).length)) ∧
    ((∀ n, ok n = true) → vs ≠ [] →
      (catch_up_send_phase vs ok).items_sent = vs.take 20) ∧
    (ok 0 = true → 20 < vs.length →
      (catch_up_send_phase vs ok).summary_attempted = true) ∧
    ((send_existing_vacancies_to_user fetch seen ok).2
        = (send_existing_vacancies_to_user fetch seen ok2).2) := by
  refine ⟨?_, ?_, ?_, ?_, ?_, rfl⟩
  · intro h0
    by_cases he : vs.isEmpty <;> simp [catch_up_send_phase, he, h0]
  · by_cases he : vs.isEmpty
    · refine ⟨[], ?_⟩
      have : vs = [] := by
        cases vs
        · rfl
        · simp at he
      simp [this, catch_up_send_phase]
    · by_cases h0 : ok 0 = true
      · have := send_items_exists_suffix ok (vs.take 20) 1
        simpa [catch_up_send_phase, he, h0] using this
      · simp [catch_up_send_phase, he, h0]
  · intro h0 hne
    have he : vs.isEmpty = false := by
      cases vs
      · exact absurd rfl hne
      · rfl
    simp [catch_up_send_phase, he, h0, send_items_eq_take]
  · intro hall hne
    have he : vs.isEmpty = false := by
      cases vs
      · exact absurd rfl hne
      · rfl
    simp [catch_up_send_phase, he, hall 0, send_items_all_ok ok hall]
  · intro h0 hlen
    have he : vs.isEmpty = false := by
      cases vs
      · simp at hlen
      · rfl
    simp [catch_up_send_phase, he, h0, hlen]

/-- Witness for C10 on a 21-item collection: a failed header sends nothing;
with the header and the first item succeeding and everything after
failing, the delivered items are the cut prefix and the summary is still
attempted. -/
theorem catch_up_send_failure_spec_witness :
    catch_up_send_phase (List.replicate 21 vac_jan01) (fun _ => false)
      = { header_sent := false, items_sent := [], summary_attempted := false } ∧
    (catch_up_send_phase (List.replicate 21 vac_jan01)
        (fun n => decide (n < 2))).items_sent
      = ((List.replicate 21 vac_jan01).take 20).take
          (leading_ok (fun n => decide (n < 2)) 1
            ((List.replicate 21 vac_jan01).take 20).length) ∧
    (catch_up_send_phase (List.replicate 21 vac_jan01)
        (fun n => decide (n < 2))).summary_attempted = true := by
  refine ⟨?_, ?_, ?_⟩
  · exact (catch_up_send_failure_spec (List.replicate 21 vac_jan01) (fun _ => false)
      (fun _ _ => []) [] (fun _ => true)).1 rfl
  · exact (catch_up_send_failure_spec (List.replicate 21 vac_jan01)
      (fun n => decide (n < 2)) (fun _ _ => []) [] (fun _ => true)).2.2.1
      (by decide) (by decide)
  · exact (catch_up_send_failure_spec (List.replicate 21 vac_jan01)
      (fun n => decide (n < 2)) (fun _ _ => []) [] (fun _ => true)).2.2.2.2.1
      (by decide) (by decide)
